import Mathlib

/-!
# Event handle of `source/eventfd.cpp`

A shallow embedding of the `Event` extension type: the handle `event_data`
(one C `int` field `fd`), and the functions `event_new`, `event_init`,
`event_fileno`, `event_read`, `event_write` and `event_close`.

What lies outside the source file is an explicit input of the model:

* every system call takes its answer from an `OsResult` supplied by the caller
  of the model (the return value, the code the kernel stores in `errno` when the
  call fails, and for `read` the bytes left in the buffer);
* `errno` is process state (`Env.errno`): a call that returns `-1` overwrites it,
  every other call leaves it as it was;
* `Env.trace` is a ghost log of the system calls issued, in order, with their
  return values; the code never reads it;
* the CPython helpers (`PyArg_ParseTuple`, `Py_BuildValue`, `PyLong_FromLong`,
  `PyErr_SetFromErrno`) are modelled by their documented behaviour on a Linux
  LP64 little-endian target (`int` is 32 bits, `long` and `ssize_t` are 64 bits).

The retry loops `do ... while (res == -1 and errno == EINTR)` recurse on the
list of answers; a list that runs out while the loop still wants to retry
yields `none` (the call has not returned).
-/

namespace Eventfd

/-! ## Constants of the platform -/

/-- Linux value of `EINTR` (interrupted system call). -/
def EINTR : Int := 4

/-- Linux value of `EBADF` (bad file descriptor). -/
def EBADF : Int := 9

/-- Smallest value of a C `int`. -/
def INT_MIN : Int := -2147483648

/-- Largest value of a C `int`. -/
def INT_MAX : Int := 2147483647

/-- Conversion of an integer to a 32-bit signed `int` (two's complement wrap),
as in `int res = ::write(...)` where `write` returns a 64-bit `ssize_t`. -/
def toInt32 (x : Int) : Int := (x + 2147483648) % 4294967296 - 2147483648

/-- Conversion of an integer to a 64-bit signed `long` (two's complement wrap),
as when a `uint64_t` is passed to `PyLong_FromLong(long)`. -/
def toInt64 (x : Int) : Int :=
  (x + 9223372036854775808) % 18446744073709551616 - 9223372036854775808

/-! ## Python side -/

/-- Python objects that can reach the methods or be returned by them. -/
inductive PyObj where
  | none
  | int (n : Int)
  | str (s : String)
  deriving DecidableEq

/-- Exceptions that the code or the argument parser can set. -/
inductive PyExc where
  | OSError (code : Int)
  | TypeError
  | OverflowError
  deriving DecidableEq

/-- What a method hands back to the interpreter: the returned pointer
(`none` is the null pointer `obj_ptr{}`) and the error indicator it leaves
(the indicator is clear when a method is entered). -/
structure Outcome where
  value : Option PyObj
  exc : Option PyExc
  deriving DecidableEq

/-- What `tp_init` hands back: the C `int` status and the error indicator. -/
structure InitOutcome where
  status : Int
  exc : Option PyExc
  deriving DecidableEq

/-- Converter of format unit `"i"`: a Python integer that fits a C `int`;
anything else is rejected (`OverflowError` when out of range, `TypeError` when
not an integer). -/
def convert_i : PyObj → Except PyExc Int
  | PyObj.int n =>
    if n < INT_MIN then Except.error PyExc.OverflowError
    else if INT_MAX < n then Except.error PyExc.OverflowError
    else Except.ok n
  | _ => Except.error PyExc.TypeError

/-- Behaviour of `PyArg_ParseTuple(args, "i", &v)`: exactly one argument, converted by `"i"`. -/
def PyArg_ParseTuple_i : List PyObj → Except PyExc Int
  | [a] => convert_i a
  | _ => Except.error PyExc.TypeError

/-- Behaviour of `PyArg_ParseTuple(args, "ii", &initval, &flags)`: exactly two
arguments, each converted by `"i"`, left to right. -/
def PyArg_ParseTuple_ii : List PyObj → Except PyExc (Int × Int)
  | [a, b] =>
    match convert_i a with
    | Except.error e => Except.error e
    | Except.ok x =>
      match convert_i b with
      | Except.error e => Except.error e
      | Except.ok y => Except.ok (x, y)
  | _ => Except.error PyExc.TypeError

/-- Behaviour of `PyLong_FromLong`: the Python integer with the value of the C `long`. -/
def PyLong_FromLong (x : Int) : PyObj := PyObj.int x

/-- Behaviour of `Py_BuildValue("")`: the `None` object; the error indicator is not touched. -/
def Py_BuildValue_empty : PyObj := PyObj.none

/-! ## Operating-system side -/

/-- Answer of the kernel to one system call: the return value, the code stored
in `errno` when the return value is `-1`, and for `read` the content of the
8-byte buffer after a call that transferred bytes. -/
structure OsResult where
  ret : Int
  err : Int
  word : Nat
  deriving DecidableEq

/-- System calls the code issues, with their arguments. -/
inductive Syscall where
  | eventfd (initval : Nat) (flags : Int)
  | close (fd : Int)
  | read (fd : Int)
  | write (fd : Int) (word : Nat)
  deriving DecidableEq

/-- One entry of the ghost log: the call issued and the value it returned. -/
structure Event where
  call : Syscall
  ret : Int
  deriving DecidableEq

/-- Process state outside the handle. -/
structure Env where
  errno : Int
  trace : List Event
  deriving DecidableEq

/-- Effect of one system call on the process state: `errno` is overwritten when
the call returns `-1`, and the call is appended to the log. -/
def syscall (c : Syscall) (r : OsResult) (env : Env) : Env :=
  ⟨if r.ret = -1 then r.err else env.errno, env.trace ++ [⟨c, r.ret⟩]⟩

/-- Behaviour of `PyErr_SetFromErrno(PyExc_OSError)`: an `OSError` carrying the
current `errno` (no exception of a signal handler is pending). -/
def PyErr_SetFromErrno (env : Env) : PyExc := PyExc.OSError env.errno

/-! ## The handle and its operations -/

/-- The instance data: the stored descriptor (`0` is the closed sentinel). -/
structure event_data where
  fd : Int
  deriving DecidableEq

/-- Loop of `event_close`: `do res = ::close(self->fd); while (res == -1 and errno == EINTR);`. -/
def closeLoop (fd : Int) : List OsResult → Env → Option (Int × Env)
  | [], _ => none
  | r :: rs, env =>
    let env1 := syscall (Syscall.close fd) r env
    let res := r.ret
    if res = -1 ∧ env1.errno = EINTR then closeLoop fd rs env1
    else some (res, env1)

/-- Model of `event_close`. -/
def event_close (self : event_data) (os : List OsResult) (env : Env) :
    Option (Outcome × event_data × Env) :=
  if self.fd = 0 then
    some (⟨some Py_BuildValue_empty, none⟩, self, env)
  else
    match closeLoop self.fd os env with
    | none => none
    | some (res, env1) =>
      let self1 : event_data :=
        if res = 0 ∨ (res = -1 ∧ env1.errno = EBADF) then ⟨0⟩ else self
      if res = 0 then
        some (⟨some Py_BuildValue_empty, none⟩, self1, env1)
      else
        some (⟨none, some (PyErr_SetFromErrno env1)⟩, self1, env1)

/-- Model of `event_new`: the freshly allocated instance has `fd = 0`. -/
def event_new : event_data := ⟨0⟩

/-- Model of `event_init`. The two parsed `int`s are stored into an `unsigned`
and an `int`; the keyword argument is ignored by the source. -/
def event_init (self : event_data) (args : List PyObj) (r : OsResult) (env : Env) :
    InitOutcome × event_data × Env :=
  match PyArg_ParseTuple_ii args with
  | Except.error e => (⟨-1, some e⟩, self, env)
  | Except.ok (a, flags) =>
    let initval : Nat := (a % 4294967296).toNat
    let env1 := syscall (Syscall.eventfd initval flags) r env
    let res := r.ret
    if 0 < res then
      (⟨0, none⟩, ⟨res⟩, env1)
    else
      (⟨-1, some (PyErr_SetFromErrno env1)⟩, self, env1)

/-- Model of `event_fileno`. -/
def event_fileno (self : event_data) : Outcome × event_data :=
  (⟨some (PyLong_FromLong self.fd), none⟩, self)

/-- Loop of `event_read`: `do res = ::read(self->fd, &v, 8); while (res == -1 and errno == EINTR);`.
A call that transfers bytes leaves the kernel's word in the buffer `v`. -/
def readLoop (fd : Int) : List OsResult → Nat → Env → Option (Int × Nat × Env)
  | [], _, _ => none
  | r :: rs, v, env =>
    let env1 := syscall (Syscall.read fd) r env
    let v1 : Nat := if 0 < r.ret then r.word % 18446744073709551616 else v
    let res := r.ret
    if res = -1 ∧ env1.errno = EINTR then readLoop fd rs v1 env1
    else some (res, v1, env1)

/-- Model of `event_read`. -/
def event_read (self : event_data) (os : List OsResult) (env : Env) :
    Option (Outcome × event_data × Env) :=
  match readLoop self.fd os 0 env with
  | none => none
  | some (res, v, env1) =>
    if 0 < res then
      some (⟨some (PyLong_FromLong (toInt64 v)), none⟩, self, env1)
    else
      some (⟨none, some (PyErr_SetFromErrno env1)⟩, self, env1)

/-- Loop of `event_write`: `do res = ::write(self->fd, &v, 8); while (res == -1 and errno == EINTR);`
with `res` an `int`. -/
def writeLoop (fd : Int) (v : Nat) : List OsResult → Env → Option (Int × Env)
  | [], _ => none
  | r :: rs, env =>
    let env1 := syscall (Syscall.write fd v) r env
    let res := toInt32 r.ret
    if res = -1 ∧ env1.errno = EINTR then writeLoop fd v rs env1
    else some (res, env1)

/-- Model of `event_write`. Format `"i"` stores a 32-bit `int` into the low four
bytes of the zero-initialised `uint64_t v`. -/
def event_write (self : event_data) (args : List PyObj) (os : List OsResult) (env : Env) :
    Option (Outcome × event_data × Env) :=
  match PyArg_ParseTuple_i args with
  | Except.error e => some (⟨some Py_BuildValue_empty, some e⟩, self, env)
  | Except.ok a =>
    let v : Nat := (a % 4294967296).toNat
    match writeLoop self.fd v os env with
    | none => none
    | some (res, env1) =>
      if 0 < res then
        some (⟨some Py_BuildValue_empty, none⟩, self, env1)
      else
        some (⟨none, some (PyErr_SetFromErrno env1)⟩, self, env1)

/-! ## Vocabulary of the statements -/

/-- An attempt that the retry loops repeat: the call failed with `EINTR`. -/
def interrupted (r : OsResult) : Prop := r.ret = -1 ∧ r.err = EINTR

instance (r : OsResult) : Decidable (interrupted r) := by
  unfold interrupted
  infer_instance

/-- Process state after the call `c` was issued once for each answer in `rs`. -/
def issue (c : Syscall) (env : Env) (rs : List OsResult) : Env :=
  rs.foldl (fun e r => syscall c r e) env

/-- The method returned `None` and left no exception. -/
def reportsSuccess (o : Outcome) : Prop := o = ⟨some PyObj.none, none⟩

/-- The method returned the null pointer with an `OSError` set. -/
def reportsOSError (o : Outcome) : Prop := o.value = none ∧ ∃ code, o.exc = some (PyExc.OSError code)

/-- One call on the handle together with the answers the OS gives to the system
calls that the call issues. -/
inductive Call where
  | create (args : List PyObj) (r : OsResult)
  | fileno
  | read (os : List OsResult)
  | write (args : List PyObj) (os : List OsResult)
  | close (os : List OsResult)

/-- State of the handle and of the process after one call that returns
(`none` when the call is still retrying at the end of the answers). -/
def exec (c : Call) (self : event_data) (env : Env) : Option (event_data × Env) :=
  match c with
  | Call.create args r => some (event_init self args r env).2
  | Call.fileno => some ((event_fileno self).2, env)
  | Call.read os => (event_read self os env).map (fun x => x.2)
  | Call.write args os => (event_write self args os env).map (fun x => x.2)
  | Call.close os => (event_close self os env).map (fun x => x.2)

/-- State after a sequence of calls, each of which returns. -/
def run : List Call → event_data → Env → Option (event_data × Env)
  | [], self, env => some (self, env)
  | c :: cs, self, env =>
    match exec c self env with
    | none => none
    | some (self1, env1) => run cs self1 env1

/-- The log shows that `fd` was returned by a creation call and that no later
`close(fd)` returned 0. -/
def Owned (fd : Int) (trace : List Event) : Prop :=
  ∃ (before after : List Event) (initval : Nat) (flags : Int),
    trace = before ++ ⟨Syscall.eventfd initval flags, fd⟩ :: after ∧
    ∀ ev ∈ after, ev ≠ ⟨Syscall.close fd, 0⟩

/-- A sample session: create (the OS answers descriptor 3), a write interrupted
once, a read, a close that fails with code 5, a second create (descriptor 4),
and fileno. -/
def sampleCalls : List Call :=
  [Call.create [PyObj.int 0, PyObj.int 0] ⟨3, 0, 0⟩,
   Call.write [PyObj.int 7] [⟨-1, EINTR, 0⟩, ⟨8, 0, 0⟩],
   Call.read [⟨8, 0, 7⟩],
   Call.close [⟨-1, 5, 0⟩],
   Call.create [PyObj.int 1, PyObj.int 0] ⟨4, 0, 0⟩,
   Call.fileno]

/-- The system calls of the sample session, as logged. -/
def sampleTrace : List Event :=
  [⟨Syscall.eventfd 0 0, 3⟩, ⟨Syscall.write 3 7, -1⟩, ⟨Syscall.write 3 7, 8⟩,
   ⟨Syscall.read 3, 8⟩, ⟨Syscall.close 3, -1⟩, ⟨Syscall.eventfd 1 0, 4⟩]

/-! ## Retry loops -/

theorem issue_cons (c : Syscall) (env : Env) (r : OsResult) (rs : List OsResult) :
    issue c env (r :: rs) = issue c (syscall c r env) rs := rfl

theorem issue_snoc (c : Syscall) (env : Env) (rs : List OsResult) (r : OsResult) :
    issue c env (rs ++ [r]) = syscall c r (issue c env rs) := by
  simp [issue, List.foldl_append]

theorem issue_trace (c : Syscall) (rs : List OsResult) (env : Env) :
    (issue c env rs).trace = env.trace ++ rs.map (fun p => (⟨c, p.ret⟩ : Event)) := by
  induction rs generalizing env with
  | nil => simp [issue]
  | cons r rs ih => rw [issue_cons, ih]; simp [syscall]

theorem closeLoop_retry (fd : Int) (pre rest : List OsResult) (env : Env)
    (hpre : ∀ p ∈ pre, interrupted p) :
    closeLoop fd (pre ++ rest) env = closeLoop fd rest (issue (Syscall.close fd) env pre) := by
  induction pre generalizing env with
  | nil => rfl
  | cons p ps ih =>
    have hp : interrupted p := hpre p (List.mem_cons_self _ _)
    have hps : ∀ q ∈ ps, interrupted q := fun q hq => hpre q (List.mem_cons_of_mem _ hq)
    rw [issue_cons, ← ih _ hps]
    simp [closeLoop, syscall, hp.1, hp.2]

theorem closeLoop_final (fd : Int) (r : OsResult) (rest : List OsResult) (env : Env)
    (hfin : ¬ interrupted r) :
    closeLoop fd (r :: rest) env = some (r.ret, syscall (Syscall.close fd) r env) := by
  unfold interrupted at hfin
  by_cases h : r.ret = -1
  · have herr : r.err ≠ EINTR := fun he => hfin ⟨h, he⟩
    simp [closeLoop, syscall, h, herr]
  · simp [closeLoop, h]

theorem closeLoop_ends (fd : Int) (pre rest : List OsResult) (r : OsResult) (env : Env)
    (hpre : ∀ p ∈ pre, interrupted p) (hfin : ¬ interrupted r) :
    closeLoop fd (pre ++ r :: rest) env
      = some (r.ret, issue (Syscall.close fd) env (pre ++ [r])) := by
  rw [closeLoop_retry fd pre _ env hpre, closeLoop_final fd r rest _ hfin, issue_snoc]

theorem readLoop_retry (fd : Int) (pre rest : List OsResult) (v : Nat) (env : Env)
    (hpre : ∀ p ∈ pre, interrupted p) :
    readLoop fd (pre ++ rest) v env = readLoop fd rest v (issue (Syscall.read fd) env pre) := by
  induction pre generalizing env with
  | nil => rfl
  | cons p ps ih =>
    have hp : interrupted p := hpre p (List.mem_cons_self _ _)
    have hps : ∀ q ∈ ps, interrupted q := fun q hq => hpre q (List.mem_cons_of_mem _ hq)
    rw [issue_cons, ← ih _ hps]
    simp [readLoop, syscall, hp.1, hp.2]

theorem readLoop_final (fd : Int) (r : OsResult) (rest : List OsResult) (v : Nat) (env : Env)
    (hfin : ¬ interrupted r) :
    readLoop fd (r :: rest) v env
      = some (r.ret, (if 0 < r.ret then r.word % 18446744073709551616 else v),
          syscall (Syscall.read fd) r env) := by
  unfold interrupted at hfin
  by_cases h : r.ret = -1
  · have herr : r.err ≠ EINTR := fun he => hfin ⟨h, he⟩
    simp [readLoop, syscall, h, herr]
  · simp [readLoop, h]

theorem readLoop_ends (fd : Int) (pre rest : List OsResult) (r : OsResult) (env : Env)
    (hpre : ∀ p ∈ pre, interrupted p) (hfin : ¬ interrupted r) :
    readLoop fd (pre ++ r :: rest) 0 env
      = some (r.ret, (if 0 < r.ret then r.word % 18446744073709551616 else 0),
          issue (Syscall.read fd) env (pre ++ [r])) := by
  rw [readLoop_retry fd pre _ 0 env hpre, readLoop_final fd r rest 0 _ hfin, issue_snoc]

theorem toInt32_of_small (x : Int) (h1 : -1 ≤ x) (h2 : x ≤ 8) : toInt32 x = x := by
  unfold toInt32
  omega

theorem writeLoop_retry (fd : Int) (v : Nat) (pre rest : List OsResult) (env : Env)
    (hpre : ∀ p ∈ pre, interrupted p) :
    writeLoop fd v (pre ++ rest) env
      = writeLoop fd v rest (issue (Syscall.write fd v) env pre) := by
  induction pre generalizing env with
  | nil => rfl
  | cons p ps ih =>
    have hp : interrupted p := hpre p (List.mem_cons_self _ _)
    have hps : ∀ q ∈ ps, interrupted q := fun q hq => hpre q (List.mem_cons_of_mem _ hq)
    have h32 : toInt32 (-1) = -1 := by decide
    rw [issue_cons, ← ih _ hps]
    simp [writeLoop, syscall, hp.1, hp.2, h32]

theorem writeLoop_final (fd : Int) (v : Nat) (r : OsResult) (rest : List OsResult) (env : Env)
    (hfin : ¬ interrupted r) (h1 : -1 ≤ r.ret) (h2 : r.ret ≤ 8) :
    writeLoop fd v (r :: rest) env = some (r.ret, syscall (Syscall.write fd v) r env) := by
  unfold interrupted at hfin
  have h32 := toInt32_of_small r.ret h1 h2
  by_cases h : r.ret = -1
  · have herr : r.err ≠ EINTR := fun he => hfin ⟨h, he⟩
    have hm : toInt32 (-1) = -1 := by decide
    simp [writeLoop, syscall, h, herr, hm]
  · simp [writeLoop, h32, h]

theorem writeLoop_ends (fd : Int) (v : Nat) (pre rest : List OsResult) (r : OsResult) (env : Env)
    (hpre : ∀ p ∈ pre, interrupted p) (hfin : ¬ interrupted r)
    (h1 : -1 ≤ r.ret) (h2 : r.ret ≤ 8) :
    writeLoop fd v (pre ++ r :: rest) env
      = some (r.ret, issue (Syscall.write fd v) env (pre ++ [r])) := by
  rw [writeLoop_retry fd v pre _ env hpre, writeLoop_final fd v r rest _ hfin h1 h2, issue_snoc]

/-! ## Close -/

/-- C1 (as stated, refuted): on the open handle with descriptor 3, a single close
attempt that fails with `EBADF` resets the descriptor to 0 but the method returns
the null pointer with `OSError(EBADF)` set; it does not report success. -/
theorem close_ebadf_reports_error :
    (⟨3⟩ : event_data).fd ≠ 0 ∧ ¬ interrupted ⟨-1, EBADF, 0⟩ ∧
    event_close ⟨3⟩ [⟨-1, EBADF, 0⟩] ⟨0, []⟩
      = some (⟨none, some (PyExc.OSError EBADF)⟩, ⟨0⟩, ⟨EBADF, [⟨Syscall.close 3, -1⟩]⟩) ∧
    ¬ reportsSuccess ⟨none, some (PyExc.OSError EBADF)⟩ := by
  refine ⟨by decide, by decide, by decide, ?_⟩
  unfold reportsSuccess
  decide

/-- C1 (amended): on an open handle, after any number of interrupted attempts, a
final close result of 0 makes `close()` store the sentinel 0 and report success;
a final failure with `EBADF` makes it store the sentinel 0 and report an
`OSError` carrying `EBADF`. In both cases exactly the attempts up to the final
one were issued. -/
theorem close_final_success_or_ebadf (self : event_data) (pre rest : List OsResult)
    (r : OsResult) (env : Env) (hopen : self.fd ≠ 0) (hpre : ∀ p ∈ pre, interrupted p) :
    (r.ret = 0 →
      event_close self (pre ++ r :: rest) env
        = some (⟨some PyObj.none, none⟩, ⟨0⟩, issue (Syscall.close self.fd) env (pre ++ [r]))) ∧
    (r.ret = -1 → r.err = EBADF →
      event_close self (pre ++ r :: rest) env
        = some (⟨none, some (PyExc.OSError EBADF)⟩, ⟨0⟩,
            issue (Syscall.close self.fd) env (pre ++ [r]))) := by
  constructor
  · intro h0
    have hfin : ¬ interrupted r := by
      unfold interrupted
      omega
    simp [event_close, hopen, closeLoop_ends self.fd pre rest r env hpre hfin, h0,
      Py_BuildValue_empty]
  · intro h1 hb
    have hne : EBADF ≠ EINTR := by decide
    have hfin : ¬ interrupted r := fun h => hne (hb ▸ h.2)
    have herrno : (issue (Syscall.close self.fd) env (pre ++ [r])).errno = EBADF := by
      rw [issue_snoc]
      simp [syscall, h1, hb]
    simp [event_close, hopen, closeLoop_ends self.fd pre rest r env hpre hfin, h1, herrno,
      PyErr_SetFromErrno]

/-- Witness of C1 (amended): descriptor 5, one interrupted attempt, then `EBADF`. -/
theorem close_final_success_or_ebadf_witness :
    (⟨5⟩ : event_data).fd ≠ 0 ∧ (∀ p ∈ [(⟨-1, EINTR, 0⟩ : OsResult)], interrupted p) ∧
    event_close ⟨5⟩ [⟨-1, EINTR, 0⟩, ⟨-1, EBADF, 0⟩] ⟨0, []⟩
      = some (⟨none, some (PyExc.OSError EBADF)⟩, ⟨0⟩,
          issue (Syscall.close 5) ⟨0, []⟩ [⟨-1, EINTR, 0⟩, ⟨-1, EBADF, 0⟩]) :=
  ⟨by decide, by decide,
    (close_final_success_or_ebadf ⟨5⟩ [⟨-1, EINTR, 0⟩] [] ⟨-1, EBADF, 0⟩ ⟨0, []⟩
      (by decide) (by decide)).2 rfl rfl⟩

/-- C2: `close()` on a handle in the sentinel state reports success, issues no
system call (process state and log are unchanged, whatever answers the OS holds
ready) and leaves the descriptor at 0; and when a first `close()` on an open
handle reports success, the handle is in the sentinel state and a second
`close()` reports success again without any system call. -/
theorem close_idempotent :
    (∀ (self : event_data) (os : List OsResult) (env : Env), self.fd = 0 →
      event_close self os env = some (⟨some PyObj.none, none⟩, self, env)) ∧
    (∀ (self self1 : event_data) (os1 os2 : List OsResult) (env env1 : Env) (o1 : Outcome),
      self.fd ≠ 0 → event_close self os1 env = some (o1, self1, env1) → reportsSuccess o1 →
      self1.fd = 0 ∧ event_close self1 os2 env1 = some (⟨some PyObj.none, none⟩, self1, env1)) := by
  have hsent : ∀ (self : event_data) (os : List OsResult) (env : Env), self.fd = 0 →
      event_close self os env = some (⟨some PyObj.none, none⟩, self, env) := by
    intro self os env h
    simp [event_close, h, Py_BuildValue_empty]
  refine ⟨hsent, ?_⟩
  intro self self1 os1 os2 env env1 o1 hopen hclose hsucc
  have hfd : self1.fd = 0 := by
    unfold reportsSuccess at hsucc
    simp only [event_close, hopen, if_false] at hclose
    cases hloop : closeLoop self.fd os1 env with
    | none => simp [hloop] at hclose
    | some p =>
      obtain ⟨res, e1⟩ := p
      simp only [hloop] at hclose
      by_cases h0 : res = 0
      · simp [h0] at hclose
        rw [← hclose.2.1]
      · simp [h0] at hclose
        rw [← hclose.1] at hsucc
        simp at hsucc
  exact ⟨hfd, hsent self1 os2 env1 hfd⟩

/-- Witness of C2: descriptor 3 closed twice; the second call finds answers ready
and uses none. -/
theorem close_idempotent_witness :
    (⟨3⟩ : event_data).fd ≠ 0 ∧
    event_close ⟨3⟩ [⟨0, 0, 0⟩] ⟨0, []⟩
      = some (⟨some PyObj.none, none⟩, ⟨0⟩, ⟨0, [⟨Syscall.close 3, 0⟩]⟩) ∧
    event_close ⟨0⟩ [⟨0, 0, 0⟩] ⟨0, [⟨Syscall.close 3, 0⟩]⟩
      = some (⟨some PyObj.none, none⟩, ⟨0⟩, ⟨0, [⟨Syscall.close 3, 0⟩]⟩) :=
  ⟨by decide, by decide,
    (close_idempotent.2 ⟨3⟩ ⟨0⟩ [⟨0, 0, 0⟩] [⟨0, 0, 0⟩] ⟨0, []⟩ ⟨0, [⟨Syscall.close 3, 0⟩]⟩
      ⟨some PyObj.none, none⟩ (by decide) (by decide) rfl).2⟩

/-- C3: on an open handle, after any number of interrupted attempts, a final
close failure whose code is neither `EINTR` nor `EBADF` makes `close()` return
the null pointer with an `OSError` carrying that code, and the stored descriptor
is the one the handle had before the call. -/
theorem close_other_failure_keeps_open (self : event_data) (pre rest : List OsResult)
    (r : OsResult) (env : Env) (hopen : self.fd ≠ 0) (hpre : ∀ p ∈ pre, interrupted p)
    (hfail : r.ret = -1) (hintr : r.err ≠ EINTR) (hbadf : r.err ≠ EBADF) :
    event_close self (pre ++ r :: rest) env
      = some (⟨none, some (PyExc.OSError r.err)⟩, self,
          issue (Syscall.close self.fd) env (pre ++ [r])) ∧
    reportsOSError ⟨none, some (PyExc.OSError r.err)⟩ := by
  have hfin : ¬ interrupted r := fun h => hintr h.2
  have herrno : (issue (Syscall.close self.fd) env (pre ++ [r])).errno = r.err := by
    rw [issue_snoc]
    simp [syscall, hfail]
  refine ⟨?_, rfl, r.err, rfl⟩
  simp [event_close, hopen, closeLoop_ends self.fd pre rest r env hpre hfin, hfail, herrno,
    hbadf, PyErr_SetFromErrno]

/-- Witness of C3: descriptor 3, two interrupted attempts, then failure with code 28. -/
theorem close_other_failure_keeps_open_witness :
    (⟨3⟩ : event_data).fd ≠ 0 ∧
    event_close ⟨3⟩ [⟨-1, EINTR, 0⟩, ⟨-1, EINTR, 0⟩, ⟨-1, 28, 0⟩] ⟨0, []⟩
      = some (⟨none, some (PyExc.OSError 28)⟩, ⟨3⟩,
          issue (Syscall.close 3) ⟨0, []⟩ [⟨-1, EINTR, 0⟩, ⟨-1, EINTR, 0⟩, ⟨-1, 28, 0⟩]) :=
  ⟨by decide,
    (close_other_failure_keeps_open ⟨3⟩ [⟨-1, EINTR, 0⟩, ⟨-1, EINTR, 0⟩] [] ⟨-1, 28, 0⟩ ⟨0, []⟩
      (by decide) (by decide) rfl (by decide) (by decide)).1⟩

/-! ## Create and fileno -/

/-- C4: on a handle in the sentinel state, with arguments the parser accepts
(two integers in the range of a C `int`), the creation call is issued once; when
it returns a descriptor `d > 0`, `create` stores `d` and reports success (status
0, no exception); when it returns anything else, `create` reports an `OSError`
failure (status -1) and the stored descriptor is still 0. -/
theorem create_stores_positive_descriptor (self : event_data) (a flags : Int) (r : OsResult)
    (env : Env) (hs : self.fd = 0)
    (ha : INT_MIN ≤ a ∧ a ≤ INT_MAX) (hf : INT_MIN ≤ flags ∧ flags ≤ INT_MAX) :
    (0 < r.ret →
      event_init self [PyObj.int a, PyObj.int flags] r env
        = (⟨0, none⟩, ⟨r.ret⟩,
            syscall (Syscall.eventfd (a % 4294967296).toNat flags) r env)) ∧
    (¬ 0 < r.ret →
      ∃ code, event_init self [PyObj.int a, PyObj.int flags] r env
        = (⟨-1, some (PyExc.OSError code)⟩, ⟨0⟩,
            syscall (Syscall.eventfd (a % 4294967296).toNat flags) r env)) := by
  have hparse : PyArg_ParseTuple_ii [PyObj.int a, PyObj.int flags] = Except.ok (a, flags) := by
    have h1 : ¬ a < INT_MIN := by omega
    have h2 : ¬ INT_MAX < a := by omega
    have h3 : ¬ flags < INT_MIN := by omega
    have h4 : ¬ INT_MAX < flags := by omega
    simp [PyArg_ParseTuple_ii, convert_i, h1, h2, h3, h4]
  have hself : self = ⟨0⟩ := by
    cases self
    simpa using hs
  constructor
  · intro hpos
    simp [event_init, hparse, hpos]
  · intro hneg
    refine ⟨(syscall (Syscall.eventfd (a % 4294967296).toNat flags) r env).errno, ?_⟩
    simp [event_init, hparse, hneg, PyErr_SetFromErrno, hself]

/-- Witness of C4: `Event(5, 0)` on a new handle when the kernel answers descriptor 3. -/
theorem create_stores_positive_descriptor_witness :
    event_new.fd = 0 ∧
    event_init event_new [PyObj.int 5, PyObj.int 0] ⟨3, 0, 0⟩ ⟨0, []⟩
      = (⟨0, none⟩, ⟨3⟩, ⟨0, [⟨Syscall.eventfd 5 0, 3⟩]⟩) :=
  ⟨rfl, (create_stores_positive_descriptor event_new 5 0 ⟨3, 0, 0⟩ ⟨0, []⟩ rfl
      (by decide) (by decide)).1 (by decide)⟩

/-- C8: `fileno()` returns the stored descriptor as a Python integer, sets no
exception and leaves the handle as it was; on a newly allocated handle it returns
0; after a `create` that reports success it returns the descriptor the OS
returned, which is positive; and after a following `close()` that reports
success it returns 0 again. -/
theorem fileno_follows_lifecycle :
    (∀ self : event_data, event_fileno self = (⟨some (PyObj.int self.fd), none⟩, self)) ∧
    (event_fileno event_new).1 = ⟨some (PyObj.int 0), none⟩ ∧
    (∀ (self self1 self2 : event_data) (args : List PyObj) (r : OsResult) (os : List OsResult)
        (env env1 env2 : Env) (o : Outcome),
      event_init self args r env = (⟨0, none⟩, self1, env1) →
      event_close self1 os env1 = some (o, self2, env2) → reportsSuccess o →
      (event_fileno self1).1 = ⟨some (PyObj.int r.ret), none⟩ ∧ 0 < r.ret ∧
      (event_fileno self2).1 = ⟨some (PyObj.int 0), none⟩) := by
  refine ⟨fun _ => rfl, rfl, ?_⟩
  intro self self1 self2 args r os env env1 env2 o hinit hclose hsucc
  have h1 : self1.fd = r.ret ∧ 0 < r.ret := by
    unfold event_init at hinit
    cases hp : PyArg_ParseTuple_ii args with
    | error e => simp [hp] at hinit
    | ok ab =>
      obtain ⟨a, b⟩ := ab
      simp only [hp] at hinit
      by_cases hpos : 0 < r.ret
      · simp [hpos] at hinit
        exact ⟨by rw [← hinit.1], hpos⟩
      · simp [hpos] at hinit
  have h2 : self2.fd = 0 := by
    unfold reportsSuccess at hsucc
    unfold event_close at hclose
    by_cases hz : self1.fd = 0
    · simp [hz] at hclose
      rw [← hclose.2.1]
      exact hz
    · simp only [hz, if_false] at hclose
      cases hloop : closeLoop self1.fd os env1 with
      | none => simp [hloop] at hclose
      | some p =>
        obtain ⟨res, e1⟩ := p
        simp only [hloop] at hclose
        by_cases h0 : res = 0
        · simp [h0] at hclose
          rw [← hclose.2.1]
        · simp [h0] at hclose
          rw [← hclose.1] at hsucc
          simp at hsucc
  refine ⟨?_, h1.2, ?_⟩
  · simp [event_fileno, PyLong_FromLong, h1.1]
  · simp [event_fileno, PyLong_FromLong, h2]

/-- Witness of C8: new handle, `Event(0, 0)` answered with descriptor 4, then a
close answered with 0. -/
theorem fileno_follows_lifecycle_witness :
    (event_fileno ⟨4⟩).1 = ⟨some (PyObj.int 4), none⟩ ∧ (0 : Int) < 4 ∧
    (event_fileno ⟨0⟩).1 = ⟨some (PyObj.int 0), none⟩ :=
  fileno_follows_lifecycle.2.2 event_new ⟨4⟩ ⟨0⟩ [PyObj.int 0, PyObj.int 0] ⟨4, 0, 0⟩
    [⟨0, 0, 0⟩] ⟨0, []⟩ ⟨0, [⟨Syscall.eventfd 0 0, 4⟩]⟩
    ⟨0, [⟨Syscall.eventfd 0 0, 4⟩, ⟨Syscall.close 4, 0⟩]⟩ ⟨some PyObj.none, none⟩
    (by decide) (by decide) rfl

/-! ## Read and write -/

/-- C5 (the code at the failing input): on a handle in the sentinel state the
methods have no check of the sentinel and pass descriptor number 0 (standard
input) to the OS. When the OS delivers 8 bytes holding the word 7, `read()`
returns 7 and sets no exception; when the OS accepts 8 bytes, `write(1)` returns
`None` and sets no exception. Neither reports an `OSError` failure; the stored
descriptor stays 0. -/
theorem sentinel_read_write_can_succeed :
    (⟨0⟩ : event_data).fd = 0 ∧
    event_read ⟨0⟩ [⟨8, 0, 7⟩] ⟨0, []⟩
      = some (⟨some (PyObj.int 7), none⟩, ⟨0⟩, ⟨0, [⟨Syscall.read 0, 8⟩]⟩) ∧
    event_write ⟨0⟩ [PyObj.int 1] [⟨8, 0, 0⟩] ⟨0, []⟩
      = some (⟨some PyObj.none, none⟩, ⟨0⟩, ⟨0, [⟨Syscall.write 0 1, 8⟩]⟩) ∧
    ¬ reportsOSError ⟨some (PyObj.int 7), none⟩ ∧ ¬ reportsOSError ⟨some PyObj.none, none⟩ := by
  refine ⟨rfl, by decide, by decide, ?_, ?_⟩ <;> simp [reportsOSError]

/-- Supporting fact on the sentinel state: `read()`, and `write(a)` for an
argument `a` that the `"i"` converter accepts, issue their system call on
descriptor number 0 and leave the stored descriptor at 0; after any number of
interrupted attempts, each returns the null pointer with an `OSError` when the
final result is not a positive byte count, and returns without exception when it
is (`read()` then returns the word the OS delivered). -/
theorem sentinel_io_follows_os_answer (self : event_data) (pre rest : List OsResult) (r : OsResult)
    (env : Env) (a : Int) (hs : self.fd = 0) (hpre : ∀ p ∈ pre, interrupted p)
    (hfin : ¬ interrupted r) :
    (r.ret ≤ 0 →
      event_read self (pre ++ r :: rest) env
        = some (⟨none, some (PyExc.OSError (issue (Syscall.read 0) env (pre ++ [r])).errno)⟩,
            ⟨0⟩, issue (Syscall.read 0) env (pre ++ [r]))) ∧
    (0 < r.ret →
      event_read self (pre ++ r :: rest) env
        = some (⟨some (PyObj.int (toInt64 (r.word % 18446744073709551616 : Nat))), none⟩,
            ⟨0⟩, issue (Syscall.read 0) env (pre ++ [r]))) ∧
    (INT_MIN ≤ a → a ≤ INT_MAX → -1 ≤ r.ret → r.ret ≤ 8 →
      (r.ret ≤ 0 →
        event_write self [PyObj.int a] (pre ++ r :: rest) env
          = some (⟨none, some (PyExc.OSError
                (issue (Syscall.write 0 (a % 4294967296).toNat) env (pre ++ [r])).errno)⟩,
              ⟨0⟩, issue (Syscall.write 0 (a % 4294967296).toNat) env (pre ++ [r]))) ∧
      (0 < r.ret →
        event_write self [PyObj.int a] (pre ++ r :: rest) env
          = some (⟨some PyObj.none, none⟩,
              ⟨0⟩, issue (Syscall.write 0 (a % 4294967296).toNat) env (pre ++ [r])))) := by
  have hself : self = ⟨0⟩ := by
    cases self
    simpa using hs
  subst hself
  refine ⟨?_, ?_, ?_⟩
  · intro hle
    have hn : ¬ 0 < r.ret := by omega
    simp [event_read, readLoop_ends 0 pre rest r env hpre hfin, hn, PyErr_SetFromErrno]
  · intro hpos
    simp [event_read, readLoop_ends 0 pre rest r env hpre hfin, hpos, PyLong_FromLong]
  · intro ha1 ha2 hlo hhi
    have hparse : PyArg_ParseTuple_i [PyObj.int a] = Except.ok a := by
      have h1 : ¬ a < INT_MIN := by omega
      have h2 : ¬ INT_MAX < a := by omega
      simp [PyArg_ParseTuple_i, convert_i, h1, h2]
    constructor
    · intro hle
      have hn : ¬ 0 < r.ret := by omega
      simp [event_write, hparse, writeLoop_ends 0 _ pre rest r env hpre hfin hlo hhi, hn,
        PyErr_SetFromErrno]
    · intro hpos
      simp [event_write, hparse, writeLoop_ends 0 _ pre rest r env hpre hfin hlo hhi, hpos,
        Py_BuildValue_empty]

/-- C7 (the code at the failing input): `read()` on a never-created handle
(descriptor number 0), first attempt interrupted, second attempt returning a
byte count of 0 without touching `errno`: the method returns the null pointer
with an `OSError` that carries `EINTR`. -/
theorem read_surfaces_stale_eintr :
    event_read ⟨0⟩ [⟨-1, EINTR, 0⟩, ⟨0, 0, 0⟩] ⟨0, []⟩
      = some (⟨none, some (PyExc.OSError EINTR)⟩, ⟨0⟩,
          ⟨EINTR, [⟨Syscall.read 0, -1⟩, ⟨Syscall.read 0, 0⟩]⟩) := by
  decide

/-- C9 (the code at the failing input): `write()` called without an argument
issues no system call and leaves handle and process state as they were, but it
returns `None`, the value it returns on success, with the parser's `TypeError`
still set. -/
theorem write_without_argument_returns_none (self : event_data) (os : List OsResult)
    (env : Env) :
    event_write self [] os env = some (⟨some PyObj.none, some PyExc.TypeError⟩, self, env) := by
  rfl

/-- C6 (the code at the failing input): `write(2147483648)` is rejected by the
`"i"` converter, so for every handle and whatever the OS holds ready no `write`
system call is issued (process state and log are unchanged): nothing is added
to the kernel counter. -/
theorem write_rejects_two_pow_31 (self : event_data) (os : List OsResult) (env : Env) :
    event_write self [PyObj.int 2147483648] os env
      = some (⟨some PyObj.none, some PyExc.OverflowError⟩, self, env) := by
  have hparse : PyArg_ParseTuple_i [PyObj.int 2147483648] = Except.error PyExc.OverflowError := by
    simp [PyArg_ParseTuple_i, convert_i, INT_MIN, INT_MAX]
  simp [event_write, hparse, Py_BuildValue_empty]

/-- Range in which the conversions of `write` and `read` are exact: for
`0 ≤ v ≤ INT_MAX` an accepted `write(v)` hands the word `v` to the OS and reports
success, and a `read()` to which the OS delivers the word `v` returns `v`. -/
theorem write_read_exact_up_to_int_max (self : event_data) (v : Int) (rest : List OsResult)
    (env : Env) (h0 : 0 ≤ v) (h1 : v ≤ INT_MAX) :
    event_write self [PyObj.int v] (⟨8, 0, 0⟩ :: rest) env
      = some (⟨some PyObj.none, none⟩, self,
          syscall (Syscall.write self.fd v.toNat) ⟨8, 0, 0⟩ env) ∧
    event_read self (⟨8, 0, v.toNat⟩ :: rest) env
      = some (⟨some (PyObj.int v), none⟩, self,
          syscall (Syscall.read self.fd) ⟨8, 0, v.toNat⟩ env) := by
  have hmax : INT_MAX = 2147483647 := rfl
  have hmin : INT_MIN = -2147483648 := rfl
  have hparse : PyArg_ParseTuple_i [PyObj.int v] = Except.ok v := by
    have a1 : ¬ v < INT_MIN := by omega
    have a2 : ¬ INT_MAX < v := by omega
    simp [PyArg_ParseTuple_i, convert_i, a1, a2]
  have hword : (v % 4294967296).toNat = v.toNat := by
    have : v % 4294967296 = v := Int.emod_eq_of_lt h0 (by omega)
    rw [this]
  have hfin8 : ¬ interrupted ⟨8, 0, 0⟩ := by decide
  have hfinr : ¬ interrupted ⟨8, 0, v.toNat⟩ := by
    unfold interrupted
    simp
  constructor
  · simp [event_write, hparse, hword,
      writeLoop_final self.fd v.toNat ⟨8, 0, 0⟩ rest env hfin8 (by decide) (by decide),
      Py_BuildValue_empty]
  · have hmod : v.toNat % 18446744073709551616 = v.toNat := Nat.mod_eq_of_lt (by omega)
    have h64 : toInt64 (v.toNat : Int) = v := by
      unfold toInt64
      omega
    simp only [event_read, readLoop_final self.fd ⟨8, 0, v.toNat⟩ rest 0 env hfinr, hmod,
      PyLong_FromLong]
    rw [if_pos (by decide), if_pos (by decide), h64]

/-! ## Reachable states -/

theorem Owned_extend (fd : Int) (trace added : List Event) (h : Owned fd trace)
    (hadd : ∀ ev ∈ added, ev ≠ ⟨Syscall.close fd, 0⟩) : Owned fd (trace ++ added) := by
  obtain ⟨before, after, initval, flags, ht, hall⟩ := h
  refine ⟨before, after ++ added, initval, flags, ?_, ?_⟩
  · rw [ht]
    simp
  · intro ev hev
    rcases List.mem_append.mp hev with h1 | h2
    · exact hall ev h1
    · exact hadd ev h2

theorem closeLoop_trace (fd : Int) (os : List OsResult) (env env1 : Env) (res : Int)
    (h : closeLoop fd os env = some (res, env1)) :
    ∃ added : List Event, env1.trace = env.trace ++ added ∧
      ∀ ev ∈ added, ev.ret = 0 → res = 0 := by
  induction os generalizing env with
  | nil => simp [closeLoop] at h
  | cons r rs ih =>
    simp only [closeLoop] at h
    by_cases hc : r.ret = -1 ∧ (syscall (Syscall.close fd) r env).errno = EINTR
    · rw [if_pos hc] at h
      obtain ⟨added, ht, hall⟩ := ih _ h
      refine ⟨⟨Syscall.close fd, r.ret⟩ :: added, ?_, ?_⟩
      · rw [ht]
        simp [syscall]
      · intro ev hev hz
        rcases List.mem_cons.mp hev with heq | hmem
        · rw [heq] at hz
          have h1 := hc.1
          simp only at hz
          omega
        · exact hall ev hmem hz
    · rw [if_neg hc] at h
      simp only [Option.some.injEq, Prod.mk.injEq] at h
      obtain ⟨hr, he⟩ := h
      refine ⟨[⟨Syscall.close fd, r.ret⟩], ?_, ?_⟩
      · rw [← he]
        simp [syscall]
      · intro ev hev hz
        rw [List.mem_singleton] at hev
        rw [hev] at hz
        simp only at hz
        omega

theorem readLoop_trace (fd : Int) (os : List OsResult) (v v1 : Nat) (env env1 : Env) (res : Int)
    (h : readLoop fd os v env = some (res, v1, env1)) :
    ∃ added : List Event, env1.trace = env.trace ++ added ∧
      ∀ ev ∈ added, ev.call = Syscall.read fd := by
  induction os generalizing env v with
  | nil => simp [readLoop] at h
  | cons r rs ih =>
    simp only [readLoop] at h
    by_cases hc : r.ret = -1 ∧ (syscall (Syscall.read fd) r env).errno = EINTR
    · rw [if_pos hc] at h
      obtain ⟨added, ht, hall⟩ := ih _ _ h
      refine ⟨⟨Syscall.read fd, r.ret⟩ :: added, ?_, ?_⟩
      · rw [ht]
        simp [syscall]
      · intro ev hev
        rcases List.mem_cons.mp hev with heq | hmem
        · rw [heq]
        · exact hall ev hmem
    · rw [if_neg hc] at h
      simp only [Option.some.injEq, Prod.mk.injEq] at h
      obtain ⟨_, _, he⟩ := h
      refine ⟨[⟨Syscall.read fd, r.ret⟩], ?_, ?_⟩
      · rw [← he]
        simp [syscall]
      · intro ev hev
        rw [List.mem_singleton] at hev
        rw [hev]

theorem writeLoop_trace (fd : Int) (v : Nat) (os : List OsResult) (env env1 : Env) (res : Int)
    (h : writeLoop fd v os env = some (res, env1)) :
    ∃ added : List Event, env1.trace = env.trace ++ added ∧
      ∀ ev ∈ added, ev.call = Syscall.write fd v := by
  induction os generalizing env with
  | nil => simp [writeLoop] at h
  | cons r rs ih =>
    simp only [writeLoop] at h
    by_cases hc : toInt32 r.ret = -1 ∧ (syscall (Syscall.write fd v) r env).errno = EINTR
    · rw [if_pos hc] at h
      obtain ⟨added, ht, hall⟩ := ih _ h
      refine ⟨⟨Syscall.write fd v, r.ret⟩ :: added, ?_, ?_⟩
      · rw [ht]
        simp [syscall]
      · intro ev hev
        rcases List.mem_cons.mp hev with heq | hmem
        · rw [heq]
        · exact hall ev hmem
    · rw [if_neg hc] at h
      simp only [Option.some.injEq, Prod.mk.injEq] at h
      obtain ⟨_, he⟩ := h
      refine ⟨[⟨Syscall.write fd v, r.ret⟩], ?_, ?_⟩
      · rw [← he]
        simp [syscall]
      · intro ev hev
        rw [List.mem_singleton] at hev
        rw [hev]

/-- The three calls that never move the descriptor. -/
theorem exec_read_write_fileno_keep (c : Call) (s s1 : event_data) (e e1 : Env)
    (hc : c = Call.fileno ∨ (∃ os, c = Call.read os) ∨ ∃ args os, c = Call.write args os)
    (h : exec c s e = some (s1, e1)) : s1 = s := by
  rcases hc with rfl | ⟨os, rfl⟩ | ⟨args, os, rfl⟩
  · simp [exec, event_fileno] at h
    exact h.1.symm
  · simp only [exec, event_read] at h
    cases hl : readLoop s.fd os 0 e with
    | none => simp [hl] at h
    | some p =>
      obtain ⟨res, v, env1⟩ := p
      simp only [hl] at h
      by_cases hp : 0 < res
      · simp [hp] at h
        exact h.1.symm
      · simp [hp] at h
        exact h.1.symm
  · simp only [exec, event_write] at h
    cases hp : PyArg_ParseTuple_i args with
    | error x =>
      simp [hp] at h
      exact h.1.symm
    | ok a =>
      simp only [hp] at h
      cases hl : writeLoop s.fd (a % 4294967296).toNat os e with
      | none => simp [hl] at h
      | some p =>
        obtain ⟨res, env1⟩ := p
        simp only [hl] at h
        by_cases hpos : 0 < res
        · simp [hpos] at h
          exact h.1.symm
        · simp [hpos] at h
          exact h.1.symm

theorem invariant_extend (s : event_data) (e e1 : Env) (added : List Event)
    (ht : e1.trace = e.trace ++ added)
    (hadd : ∀ ev ∈ added, ev ≠ ⟨Syscall.close s.fd, 0⟩)
    (hinv : s.fd = 0 ∨ (0 < s.fd ∧ Owned s.fd e.trace)) :
    s.fd = 0 ∨ (0 < s.fd ∧ Owned s.fd e1.trace) := by
  rcases hinv with h0 | ⟨hpos, hown⟩
  · exact Or.inl h0
  · refine Or.inr ⟨hpos, ?_⟩
    rw [ht]
    exact Owned_extend s.fd e.trace added hown hadd

theorem exec_invariant (c : Call) (s s1 : event_data) (e e1 : Env)
    (hinv : s.fd = 0 ∨ (0 < s.fd ∧ Owned s.fd e.trace))
    (h : exec c s e = some (s1, e1)) :
    s1.fd = 0 ∨ (0 < s1.fd ∧ Owned s1.fd e1.trace) := by
  cases c with
  | create args r =>
    simp only [exec, event_init] at h
    cases hp : PyArg_ParseTuple_ii args with
    | error x =>
      simp [hp] at h
      rw [← h.1, ← h.2]
      exact hinv
    | ok ab =>
      obtain ⟨a, flags⟩ := ab
      simp only [hp] at h
      by_cases hpos : 0 < r.ret
      · simp [hpos] at h
        rw [← h.1, ← h.2]
        refine Or.inr ⟨hpos, e.trace, [], (a % 4294967296).toNat, flags, ?_, ?_⟩
        · simp [syscall]
        · intro ev hev
          simp at hev
      · simp [hpos] at h
        rw [← h.1]
        refine invariant_extend s e e1 [⟨Syscall.eventfd (a % 4294967296).toNat flags, r.ret⟩]
          ?_ ?_ hinv
        · rw [← h.2]
          simp [syscall]
        · intro ev hev
          rw [List.mem_singleton] at hev
          rw [hev]
          simp
  | fileno =>
    simp [exec, event_fileno] at h
    rw [← h.1, ← h.2]
    exact hinv
  | read os =>
    have hs : s1 = s := exec_read_write_fileno_keep _ s s1 e e1 (Or.inr (Or.inl ⟨os, rfl⟩)) h
    subst hs
    simp only [exec, event_read] at h
    cases hl : readLoop s1.fd os 0 e with
    | none => simp [hl] at h
    | some p =>
      obtain ⟨res, v, env1⟩ := p
      obtain ⟨added, ht, hall⟩ := readLoop_trace _ _ _ _ _ _ _ hl
      have he : env1 = e1 := by
        simp only [hl] at h
        by_cases hp : 0 < res
        · simp [hp] at h
          exact h
        · simp [hp] at h
          exact h
      subst he
      refine invariant_extend s1 e env1 added ht ?_ hinv
      intro ev hev hcl
      have := hall ev hev
      rw [hcl] at this
      simp at this
  | write args os =>
    have hs : s1 = s :=
      exec_read_write_fileno_keep _ s s1 e e1 (Or.inr (Or.inr ⟨args, os, rfl⟩)) h
    subst hs
    simp only [exec, event_write] at h
    cases hp : PyArg_ParseTuple_i args with
    | error x =>
      simp [hp] at h
      rw [← h]
      exact hinv
    | ok a =>
      simp only [hp] at h
      cases hl : writeLoop s1.fd (a % 4294967296).toNat os e with
      | none => simp [hl] at h
      | some p =>
        obtain ⟨res, env1⟩ := p
        obtain ⟨added, ht, hall⟩ := writeLoop_trace _ _ _ _ _ _ hl
        have he : env1 = e1 := by
          simp only [hl] at h
          by_cases hpos : 0 < res
          · simp [hpos] at h
            exact h
          · simp [hpos] at h
            exact h
        subst he
        refine invariant_extend s1 e env1 added ht ?_ hinv
        intro ev hev hcl
        have := hall ev hev
        rw [hcl] at this
        simp at this
  | close os =>
    simp only [exec, event_close] at h
    by_cases hz : s.fd = 0
    · simp [hz] at h
      rw [← h.1, ← h.2]
      exact hinv
    · simp only [hz, if_false] at h
      cases hl : closeLoop s.fd os e with
      | none => simp [hl] at h
      | some p =>
        obtain ⟨res, env1⟩ := p
        obtain ⟨added, ht, hall⟩ := closeLoop_trace _ _ _ _ _ hl
        simp only [hl] at h
        have hst : (if res = 0 ∨ (res = -1 ∧ env1.errno = EBADF) then (⟨0⟩ : event_data) else s)
            = s1 ∧ env1 = e1 := by
          by_cases h0 : res = 0
          · simp [h0] at h
            simp [h0, h]
          · simp [h0] at h ⊢
            exact h
        obtain ⟨hs1, he⟩ := hst
        subst he
        by_cases hreset : res = 0 ∨ (res = -1 ∧ env1.errno = EBADF)
        · rw [if_pos hreset] at hs1
          rw [← hs1]
          exact Or.inl rfl
        · rw [if_neg hreset] at hs1
          subst hs1
          refine invariant_extend s e env1 added ht ?_ hinv
          intro ev hev hcl
          have h0 : res = 0 := hall ev hev (by rw [hcl])
          exact hreset (Or.inl h0)

theorem run_invariant (calls : List Call) (s s1 : event_data) (e e1 : Env)
    (hinv : s.fd = 0 ∨ (0 < s.fd ∧ Owned s.fd e.trace))
    (h : run calls s e = some (s1, e1)) :
    s1.fd = 0 ∨ (0 < s1.fd ∧ Owned s1.fd e1.trace) := by
  induction calls generalizing s e with
  | nil =>
    simp [run] at h
    rw [← h.1, ← h.2]
    exact hinv
  | cons c cs ih =>
    simp only [run] at h
    cases hx : exec c s e with
    | none => simp [hx] at h
    | some p =>
      obtain ⟨s2, e2⟩ := p
      simp only [hx] at h
      exact ih s2 e2 (exec_invariant c s s2 e e2 hinv hx) h

/-- C10: in every state reached from a newly allocated handle (with an empty
log and any `errno`) by a finite sequence of create, fileno, read, write and
close calls that return, under arbitrary OS answers, the stored descriptor is
either the sentinel 0 or a positive value that the log shows to be returned by
a creation call of this handle with no later `close` of it returning 0; it is
never negative; and in any state a fileno, read or write call that returns
leaves the handle as it was. -/
theorem reachable_descriptor_invariant (calls : List Call) (errno0 : Int)
    (self : event_data) (env : Env)
    (hrun : run calls event_new ⟨errno0, []⟩ = some (self, env)) :
    (self.fd = 0 ∨ (0 < self.fd ∧ Owned self.fd env.trace)) ∧ 0 ≤ self.fd ∧
    (∀ (c : Call) (s s1 : event_data) (e e1 : Env),
      (c = Call.fileno ∨ (∃ os, c = Call.read os) ∨ ∃ args os, c = Call.write args os) →
      exec c s e = some (s1, e1) → s1.fd = s.fd) := by
  have hinv := run_invariant calls event_new self ⟨errno0, []⟩ env (Or.inl rfl) hrun
  refine ⟨hinv, ?_, ?_⟩
  · rcases hinv with h0 | ⟨hpos, _⟩
    · omega
    · omega
  · intro c s s1 e e1 hc h
    rw [exec_read_write_fileno_keep c s s1 e e1 hc h]

/-- Witness of C10: create (descriptor 3), write, read, a close that fails with
code 5, a second create (descriptor 4), and fileno. -/
theorem reachable_descriptor_invariant_witness :
    run sampleCalls event_new ⟨0, []⟩ = some (⟨4⟩, ⟨5, sampleTrace⟩) ∧
    (((⟨4⟩ : event_data).fd = 0 ∨ (0 < (⟨4⟩ : event_data).fd ∧ Owned 4 sampleTrace)) ∧
      0 ≤ (⟨4⟩ : event_data).fd) :=
  ⟨by decide,
    (reachable_descriptor_invariant sampleCalls 0 ⟨4⟩ ⟨5, sampleTrace⟩ (by decide)).1,
    (reachable_descriptor_invariant sampleCalls 0 ⟨4⟩ ⟨5, sampleTrace⟩ (by decide)).2.1⟩

end Eventfd
